import Mathlib

/-! SBS backend (`main.go`): request handlers over a relational store

A shallow embedding of the Postgres-backed `main.go`: the six handlers
(`register`, `login`, `profile`, `postBetslip`, `postComment`, `leaderboard`)
and `authMiddleware`, as functions from a request and a store state to a
response and a store state.

What the program calls but does not own is made explicit:

* the relational store: statement-level semantics over three tables
  (`Store`), with an injected `fault` for every failure the store can report
  for reasons outside the tables (lost connection, rejected value, ...);
* `encoding/json` + gin binding: `Body` is the request body as the decoder
  sees it, `decodeStringField` / `decodeRawField` follow `json.Unmarshal`;
* `bcrypt` and the compact serialisation / HMAC of `jwt-go`: fields of `Env`;
* the wall clock: `now`, the `Unix()` reading in whole seconds, the only way
  the program observes time.
-/

namespace SBS

/-! ## Responses -/

/-- One element of the leaderboard response:
`gin.H{"user": u, "wins": w, "losses": l, "rate": wr}`. -/
structure LbEntry where
  user : String
  wins : Int
  losses : Int
  rate : Rat
deriving DecidableEq, Repr

/-- The JSON bodies the handlers write (`gin.H{...}` and the leaderboard slice). -/
inductive RespBody
  | error (msg : String)
  | message (msg : String)
  | token (tokenString : String)
  | betslipPosted (msg : String) (betslip_id : Int)
  | winsLosses (wins losses : Int)
  | leaderboard (lb : List LbEntry)
deriving DecidableEq, Repr

/-- Status code and body of `c.JSON(status, body)` / `c.AbortWithStatusJSON`. -/
structure Response where
  status : Nat
  body : RespBody
deriving DecidableEq, Repr

/-! ## Values travelling from token claims to statement parameters -/

/-- An `interface{}` value as it comes out of the token claims and goes into a
statement parameter: absent / JSON null, an integral number, or anything else
(kept as its raw text). -/
inductive Value
  | nil
  | num (n : Int)
  | other (raw : String)
deriving DecidableEq, Repr

/-! ## The store -/

/-- Row of `users`. -/
structure User where
  id : Int
  username : String
  email : String
  password_hash : String
  role : String
  total_wins : Int
  total_losses : Int
  win_rate : Rat
deriving DecidableEq, Repr

/-- Row of `betslips`. `games` is the raw JSON text handed to the statement
(`none` for a nil `json.RawMessage`). -/
structure Betslip where
  id : Int
  user_id : Int
  platform : String
  games : Option String
  status : String
deriving DecidableEq, Repr

/-- Row of `comments`. -/
structure Comment where
  id : Int
  user_id : Int
  betslip_id : Int
  content : String
deriving DecidableEq, Repr

/-- Modelled from the spec: the relational schema is not part of the
repository. Three tables as section 3 of the specification lists them, each with
a server-side id sequence; `username` and `email` unique, `comments.betslip_id`
a foreign key into `betslips`. -/
structure Store where
  users : List User
  betslips : List Betslip
  comments : List Comment
  nextUserId : Int
  nextBetslipId : Int
  nextCommentId : Int
deriving DecidableEq, Repr

/-- An error value returned by `database/sql`: a `*pq.Error` with the name of
its SQLSTATE code (`pqErr.Code.Name()`), or any other error (bad connection,
driver conversion error, ...). -/
inductive DbErr
  | pq (codeName : String)
  | driver (msg : String)
deriving DecidableEq, Repr

/-- `err.Error()`. -/
def DbErr.Error : DbErr → String
  | .pq codeName => "pq: " ++ codeName
  | .driver msg => msg

/-- Error of `QueryRow(...).Scan(...)`: `sql.ErrNoRows` or a store error. -/
inductive RowErr
  | ErrNoRows
  | db (e : DbErr)
deriving DecidableEq, Repr

/-- `rowErr.Error()`. -/
def RowErr.Error : RowErr → String
  | .ErrNoRows => "sql: no rows in result set"
  | .db e => e.Error

/-- Modelled from the spec: the store's reading of a statement parameter bound
to an integer column (the column types are not in the repository). -/
def Value.asInt : Value → Option Int
  | .num n => some n
  | _ => none

/-- Read a non-empty run of decimal digits. -/
def natOfDigits (cs : List Char) : Option Nat :=
  if cs = [] then none
  else cs.foldl (fun acc c => acc.bind fun n => if c.isDigit then some (10 * n + (c.toNat - 48)) else none)
    (some 0)

/-- Modelled from the spec: the store's reading of a text parameter bound to an
integer column (the column types are not in the repository): an optional sign, then
decimal digits. -/
def intOfText (s : String) : Option Int :=
  match s.toList with
  | '-' :: ds => (natOfDigits ds).map fun n => -(n : Int)
  | '+' :: ds => (natOfDigits ds).map fun n => (n : Int)
  | ds => (natOfDigits ds).map fun n => (n : Int)

/-- Modelled from the spec: the schema is not in the repository.
`INSERT INTO users(username,email,password_hash,role) VALUES($1,$2,$3,'punter')
ON CONFLICT (username) DO NOTHING`: a row with the same username makes the
statement a successful no-op; otherwise the uniqueness of `email` is enforced;
otherwise the row is added with role `punter` and zeroed counters. -/
def Store.insertUser (db : Store) (fault : Option DbErr) (username email password_hash : String) :
    Except DbErr Store :=
  match fault with
  | some e => .error e
  | none =>
    if db.users.any (fun u => u.username == username) then .ok db
    else if db.users.any (fun u => u.email == email) then .error (.pq "unique_violation")
    else .ok { db with
      users := db.users ++ [⟨db.nextUserId, username, email, password_hash, "punter", 0, 0, 0⟩]
      nextUserId := db.nextUserId + 1 }

/-- Modelled from the spec: the schema is not in the repository.
`SELECT id, password_hash FROM users WHERE username=$1`, scanned as one row. -/
def Store.selectIdHash (db : Store) (fault : Option DbErr) (username : String) :
    Except RowErr (Int × String) :=
  match fault with
  | some e => .error (.db e)
  | none =>
    match db.users.find? (fun u => u.username == username) with
    | none => .error .ErrNoRows
    | some u => .ok (u.id, u.password_hash)

/-- Modelled from the spec: the schema is not in the repository.
`SELECT total_wins, total_losses FROM users WHERE id=$1`, scanned as one row. -/
def Store.selectWinsLosses (db : Store) (fault : Option DbErr) (userID : Value) :
    Except RowErr (Int × Int) :=
  match fault with
  | some e => .error (.db e)
  | none =>
    match userID.asInt with
    | none => .error (.db (.pq "invalid_text_representation"))
    | some uid =>
      match db.users.find? (fun u => u.id == uid) with
      | none => .error .ErrNoRows
      | some u => .ok (u.total_wins, u.total_losses)

/-- Modelled from the spec: the schema is not in the repository.
`INSERT INTO betslips(user_id, platform, games, status) VALUES($1, $2, $3,
'pending') RETURNING id`: one new row with the next id of the sequence. -/
def Store.insertBetslip (db : Store) (fault : Option DbErr) (userID : Value) (platform : String)
    (games : Option String) : Except RowErr (Int × Store) :=
  match fault with
  | some e => .error (.db e)
  | none =>
    match userID.asInt with
    | none => .error (.db (.pq "invalid_text_representation"))
    | some uid =>
      .ok (db.nextBetslipId,
        { db with
          betslips := db.betslips ++ [⟨db.nextBetslipId, uid, platform, games, "pending"⟩]
          nextBetslipId := db.nextBetslipId + 1 })

/-- Modelled from the spec: the schema is not in the repository.
`INSERT INTO comments (user_id, betslip_id, content) VALUES ($1, $2, $3)`: the
betslip id arrives as the text of the path parameter; the foreign key from
`comments` to `betslips` is checked. -/
def Store.insertComment (db : Store) (fault : Option DbErr) (userID : Value) (betslipID : String)
    (content : String) : Except DbErr Store :=
  match fault with
  | some e => .error e
  | none =>
    match userID.asInt, intOfText betslipID with
    | some uid, some bid =>
      if db.betslips.any (fun b => b.id == bid) then
        .ok { db with
          comments := db.comments ++ [⟨db.nextCommentId, uid, bid, content⟩]
          nextCommentId := db.nextCommentId + 1 }
      else .error (.pq "foreign_key_violation")
    | _, _ => .error (.pq "invalid_text_representation")

/-! ## Request bodies and `ShouldBindJSON` -/

/-- Kind of a JSON value as far as decoding into a `string` field goes. -/
inductive JKind
  | null
  | string (s : String)
  | other
deriving DecidableEq, Repr

/-- One member of a JSON object: key, kind of the value, raw text of the value. -/
structure Member where
  key : String
  kind : JKind
  raw : String
deriving DecidableEq, Repr

/-- The request body as `json.NewDecoder(body).Decode` meets it: no JSON value
(empty or not JSON), the literal `null`, a JSON value that is not an object, or an
object with its members in order. -/
inductive Body
  | malformed
  | null
  | nonObject
  | object (members : List Member)
deriving DecidableEq, Repr

/-- Case folding of one character of a key, enough for the ASCII field names used
here: ASCII letters to lower case, the Kelvin sign to `k`, the long s to `s`. -/
def foldChar (c : Char) : Char :=
  if c = Char.ofNat 0x212A then 'k'
  else if c = Char.ofNat 0x017F then 's'
  else c.toLower

/-- Whether an object key selects the struct field tagged `name`
(`encoding/json` matches keys case-insensitively). -/
def equalFold (name key : String) : Bool :=
  name.toList.map foldChar == key.toList.map foldChar

/-- Decoding of the members of an object into one `string` field, starting from
`cur`: a matching string member assigns, a matching `null` leaves the field, any
other matching value is an `UnmarshalTypeError` (`none`); the last match wins. -/
def decodeStringField (name : String) : List Member → String → Option String
  | [], cur => some cur
  | m :: ms, cur =>
    if equalFold name m.key then
      match m.kind with
      | .null => decodeStringField name ms cur
      | .string s => decodeStringField name ms s
      | .other => none
    else decodeStringField name ms cur

/-- Decoding of the members of an object into one `json.RawMessage` field: a
matching member of any kind assigns its raw text. -/
def decodeRawField (name : String) : List Member → Option String → Option String
  | [], cur => cur
  | m :: ms, cur =>
    if equalFold name m.key then decodeRawField name ms (some m.raw)
    else decodeRawField name ms cur

/-- The struct `register` binds. -/
structure RegisterForm where
  Username : String
  Email : String
  Password : String
deriving DecidableEq, Repr

/-- `c.ShouldBindJSON(&u)` in `register`; `none` is a non-nil error. The struct
carries no `binding` tags, so a decoded struct always validates. -/
def bindRegister : Body → Option RegisterForm
  | .malformed => none
  | .nonObject => none
  | .null => some ⟨"", "", ""⟩
  | .object ms =>
    match decodeStringField "username" ms "", decodeStringField "email" ms "",
      decodeStringField "password" ms "" with
    | some u, some e, some p => some ⟨u, e, p⟩
    | _, _, _ => none

/-- The struct `login` binds. -/
structure LoginForm where
  Username : String
  Password : String
deriving DecidableEq, Repr

/-- `c.ShouldBindJSON(&u)` in `login`. -/
def bindLogin : Body → Option LoginForm
  | .malformed => none
  | .nonObject => none
  | .null => some ⟨"", ""⟩
  | .object ms =>
    match decodeStringField "username" ms "", decodeStringField "password" ms "" with
    | some u, some p => some ⟨u, p⟩
    | _, _ => none

/-- The struct `postBetslip` binds. -/
structure BetslipForm where
  Platform : String
  Games : Option String
deriving DecidableEq, Repr

/-- `c.ShouldBindJSON(&b)` in `postBetslip`. -/
def bindBetslip : Body → Option BetslipForm
  | .malformed => none
  | .nonObject => none
  | .null => some ⟨"", none⟩
  | .object ms =>
    match decodeStringField "platform" ms "" with
    | some p => some ⟨p, decodeRawField "games" ms none⟩
    | none => none

/-- The struct `postComment` binds. -/
structure CommentForm where
  Content : String
deriving DecidableEq, Repr

/-- `c.ShouldBindJSON(&comment)` in `postComment`. -/
def bindComment : Body → Option CommentForm
  | .malformed => none
  | .nonObject => none
  | .null => some ⟨""⟩
  | .object ms =>
    match decodeStringField "content" ms "" with
    | some s => some ⟨s⟩
    | none => none

/-! ### What a request object gives for a field, in the words of the claims -/

/-- The string a member carries when its value is a JSON string. -/
def Member.string? (m : Member) : Option String :=
  match m.kind with
  | .string s => some s
  | _ => none

/-- The string a request object gives for the field `name`: that of its last member
whose key matches `name` and whose value is a string; the empty string when there
is no such member (the field is missing, or only given as `null`). -/
def requestString (name : String) (ms : List Member) : String :=
  (((ms.filter fun m => equalFold name m.key).filterMap Member.string?).getLast?).getD ""

/-- The raw JSON text a request object gives for the field `name`: that of its last
member whose key matches `name`, whatever its kind; `none` when there is none. -/
def requestRaw (name : String) (ms : List Member) : Option String :=
  ((ms.filter fun m => equalFold name m.key).map Member.raw).getLast?

/-- Whether a request object gives the field `name` a value that is neither a
string nor `null`. -/
def mistyped (name : String) (ms : List Member) : Prop :=
  ∃ m ∈ ms, equalFold name m.key = true ∧ m.kind = .other

/-! ## Tokens (`jwt-go`) -/

/-- `jwt.MapClaims` as far as the program and claim validation read it:
`user_id`, and the numeric `exp`, `iat`, `nbf` as whole seconds (`none` when the
key is absent or not a number). -/
structure MapClaims where
  user_id : Value
  exp : Option Int
  iat : Option Int
  nbf : Option Int
deriving DecidableEq, Repr

/-- A token string split and decoded, before any verification: the `alg` of the
header when it is a string, the claims, the text that was signed
(`parts[0] + "." + parts[1]`) and the signature segment (`parts[2]`). -/
structure Token where
  alg : Option String
  claims : MapClaims
  signingString : String
  signature : String
deriving DecidableEq, Repr

/-- The registered signing methods, by family (the Go type of `token.Method`). -/
inductive SigningMethod
  | HMAC (name : String)
  | RSA (name : String)
  | RSAPSS (name : String)
  | ECDSA (name : String)
  | unsecured
deriving DecidableEq, Repr

/-- The type assertion `token.Method.(*jwt.SigningMethodHMAC)`. -/
def SigningMethod.isHMAC : SigningMethod → Bool
  | .HMAC _ => true
  | _ => false

/-- `jwt.GetSigningMethod(alg)`: `none` for an algorithm that is not registered. -/
def GetSigningMethod (alg : String) : Option SigningMethod :=
  if alg = "HS256" ∨ alg = "HS384" ∨ alg = "HS512" then some (.HMAC alg)
  else if alg = "RS256" ∨ alg = "RS384" ∨ alg = "RS512" then some (.RSA alg)
  else if alg = "PS256" ∨ alg = "PS384" ∨ alg = "PS512" then some (.RSAPSS alg)
  else if alg = "ES256" ∨ alg = "ES384" ∨ alg = "ES512" then some (.ECDSA alg)
  else if alg = "none" then some .unsecured
  else none

/-- The libraries the handlers call for hashing and for the wire form of tokens.
`GenerateFromPassword salt password` and `Sign alg signingString key` return `none`
for a non-nil error; `CompareHashAndPassword hash password` and
`Verify alg signingString signature key` are `true` for a nil error;
`decodeSegments` is the splitting and decoding of a token string (`none` when it
is malformed). -/
structure Env where
  GenerateFromPassword : String → String → Option String
  CompareHashAndPassword : String → String → Bool
  SigningString : String → MapClaims → String
  Sign : String → String → String → Option String
  Verify : String → String → String → String → Bool
  decodeSegments : String → Option Token

/-- `verifyExp` of `jwt-go`. -/
def verifyExp (exp now : Int) (required : Bool) : Bool :=
  if exp = 0 then !required else decide (now ≤ exp)

/-- `verifyIat` of `jwt-go`. -/
def verifyIat (iat now : Int) (required : Bool) : Bool :=
  if iat = 0 then !required else decide (now ≥ iat)

/-- `verifyNbf` of `jwt-go`. -/
def verifyNbf (nbf now : Int) (required : Bool) : Bool :=
  if nbf = 0 then !required else decide (now ≥ nbf)

/-- `MapClaims.VerifyExpiresAt`. -/
def MapClaims.VerifyExpiresAt (m : MapClaims) (cmp : Int) (req : Bool) : Bool :=
  match m.exp with
  | some exp => verifyExp exp cmp req
  | none => req == false

/-- `MapClaims.VerifyIssuedAt`. -/
def MapClaims.VerifyIssuedAt (m : MapClaims) (cmp : Int) (req : Bool) : Bool :=
  match m.iat with
  | some iat => verifyIat iat cmp req
  | none => req == false

/-- `MapClaims.VerifyNotBefore`. -/
def MapClaims.VerifyNotBefore (m : MapClaims) (cmp : Int) (req : Bool) : Bool :=
  match m.nbf with
  | some nbf => verifyNbf nbf cmp req
  | none => req == false

/-- `MapClaims.Valid()` at clock reading `now` (`TimeFunc().Unix()`): `true` for a
nil error. -/
def MapClaims.Valid (m : MapClaims) (now : Nat) : Bool :=
  m.VerifyExpiresAt now false && m.VerifyIssuedAt now false && m.VerifyNotBefore now false

/-- The key function `authMiddleware` hands to `jwt.Parse`: the secret for a
method of the HMAC family, an error for any other. -/
def keyFunc (jwtSecret : String) (method : SigningMethod) : Except String String :=
  if method.isHMAC = false then .error "unexpected signing method"
  else .ok jwtSecret

/-- `jwt.Parse(tokenString, keyFunc)`: decode, look the method up, ask the key
function, validate the claims, verify the signature. `.ok token` stands for
`err == nil` (then `token.Valid` holds), `.error` for `err != nil`. -/
def Parse (E : Env) (jwtSecret : String) (now : Nat) (tokenString : String) :
    Except String Token :=
  match E.decodeSegments tokenString with
  | none => .error "token is malformed"
  | some token =>
    match token.alg with
    | none => .error "signing method (alg) is unspecified."
    | some alg =>
      match GetSigningMethod alg with
      | none => .error "signing method (alg) is unavailable."
      | some method =>
        match keyFunc jwtSecret method with
        | .error e => .error e
        | .ok key =>
          let claimsValid := token.claims.Valid now
          let signatureValid := E.Verify alg token.signingString token.signature key
          if claimsValid && signatureValid then .ok token
          else .error "token is invalid"

/-- `jwt.NewWithClaims(jwt.SigningMethodHS256, claims).SignedString(key)`. -/
def SignedString (E : Env) (claims : MapClaims) (key : String) : Option String :=
  let sstr := E.SigningString "HS256" claims
  match E.Sign "HS256" sstr key with
  | none => none
  | some sig => some (sstr ++ "." ++ sig)

/-! ## Middleware -/

/-- `strings.TrimPrefix(s, pre)`. -/
def TrimPrefix (s pre : String) : String :=
  if pre.toList.isPrefixOf s.toList then String.mk (s.toList.drop pre.length) else s

/-- The keys of the gin context the handlers read: `c.Get("user_id")` is
`(v, true)` for `some v` and `(nil, false)` for `none`. -/
structure Context where
  user_id : Option Value
deriving DecidableEq, Repr

/-- What `authMiddleware` does with a request: abort with a response, or set
`user_id` and call `c.Next()`. -/
inductive AuthResult
  | abort (r : Response)
  | next (c : Context)
deriving DecidableEq, Repr

/-- `authMiddleware` on the `Authorization` header (`""` when absent), at clock
reading `now`. The type assertion `token.Claims.(jwt.MapClaims)` always succeeds
on a token made by `jwt.Parse`, so its `else` branch has no input. -/
def authMiddleware (E : Env) (jwtSecret : String) (now : Nat) (authHeader : String) : AuthResult :=
  if authHeader = "" then
    .abort ⟨401, .error "Authorization header required"⟩
  else
    let tokenString := TrimPrefix authHeader "Bearer "
    if tokenString = authHeader then
      .abort ⟨401, .error "Bearer token required"⟩
    else
      match Parse E jwtSecret now tokenString with
      | .error _ => .abort ⟨401, .error "Invalid token"⟩
      | .ok token => .next ⟨some token.claims.user_id⟩

/-- A route of the `auth` group: the middleware, then the handler unless the
middleware aborted. -/
def authRoute (E : Env) (jwtSecret : String) (now : Nat) (authHeader : String)
    (handler : Context → Store → Response × Store) (db : Store) : Response × Store :=
  match authMiddleware E jwtSecret now authHeader with
  | .abort r => (r, db)
  | .next c => handler c db

/-! ## Handlers -/

/-- `register`: bind, hash, insert. `salt` is the randomness `bcrypt` draws for this
call. Any error of the insert is answered 409. -/
def register (E : Env) (salt : String) (fault : Option DbErr) (body : Body) (db : Store) :
    Response × Store :=
  match bindRegister body with
  | none => (⟨400, .error "Invalid request body"⟩, db)
  | some u =>
    match E.GenerateFromPassword salt u.Password with
    | none => (⟨500, .error "Failed to hash password"⟩, db)
    | some hashedPassword =>
      match db.insertUser fault u.Username u.Email hashedPassword with
      | .error _ => (⟨409, .error "Username or email already exists"⟩, db)
      | .ok db1 => (⟨201, .message ("Welcome " ++ u.Username ++ "!")⟩, db1)

/-- The claims `login` puts in a token issued at clock reading `now`:
`"user_id": id` and `"exp": time.Now().Add(time.Hour * 72).Unix()`, which is the
`Unix()` reading plus `72 * 3600` since 72 hours are a whole number of seconds. -/
def loginClaims (id : Int) (now : Nat) : MapClaims :=
  ⟨.num id, some (now + 72 * 3600), none, none⟩

/-- `login`: bind, look the hash up, compare, issue a token expiring 72 hours
after `now`. The store is only read. -/
def login (E : Env) (jwtSecret : String) (now : Nat) (fault : Option DbErr) (body : Body)
    (db : Store) : Response :=
  match bindLogin body with
  | none => ⟨400, .error "Invalid request body"⟩
  | some u =>
    match db.selectIdHash fault u.Username with
    | .error .ErrNoRows => ⟨401, .error "Invalid credentials"⟩
    | .error (.db _) => ⟨500, .error "Database error"⟩
    | .ok (id, hashedPassword) =>
      if E.CompareHashAndPassword hashedPassword u.Password = false then
        ⟨401, .error "Invalid credentials"⟩
      else
        match SignedString E (loginClaims id now) jwtSecret with
        | none => ⟨500, .error "Failed to create token"⟩
        | some tokenString => ⟨200, .token tokenString⟩

/-- `postBetslip`. -/
def postBetslip (fault : Option DbErr) (body : Body) (c : Context) (db : Store) :
    Response × Store :=
  match c.user_id with
  | none => (⟨500, .error "User ID not found in context"⟩, db)
  | some userID =>
    match bindBetslip body with
    | none => (⟨400, .error "Invalid request body"⟩, db)
    | some b =>
      match db.insertBetslip fault userID b.Platform b.Games with
      | .error err => (⟨500, .error err.Error⟩, db)
      | .ok (betslipID, db1) => (⟨201, .betslipPosted "Betslip posted successfully!" betslipID⟩, db1)

/-- `profile`. -/
def profile (fault : Option DbErr) (c : Context) (db : Store) : Response × Store :=
  match c.user_id with
  | none => (⟨500, .error "User ID not found in context"⟩, db)
  | some userID =>
    match db.selectWinsLosses fault userID with
    | .error err => (⟨500, .error err.Error⟩, db)
    | .ok (w, l) => (⟨200, .winsLosses w l⟩, db)

/-- `postComment`; `betslipID` is `c.Param("id")`. -/
def postComment (fault : Option DbErr) (betslipID : String) (body : Body) (c : Context)
    (db : Store) : Response × Store :=
  match c.user_id with
  | none => (⟨500, .error "User ID not found in context"⟩, db)
  | some userID =>
    match bindComment body with
    | none => (⟨400, .error "Invalid request body"⟩, db)
    | some comment =>
      if comment.Content = "" then
        (⟨400, .error "Comment content cannot be empty"⟩, db)
      else
        match db.insertComment fault userID betslipID comment.Content with
        | .error (.pq codeName) =>
          if codeName = "foreign_key_violation" then (⟨404, .error "Betslip not found"⟩, db)
          else (⟨500, .error "Failed to post comment"⟩, db)
        | .error (.driver _) => (⟨500, .error "Failed to post comment"⟩, db)
        | .ok db1 => (⟨201, .message "Comment posted successfully"⟩, db1)

/-- The statement text `leaderboard` builds from the `type` query parameter
(`""` when absent). -/
def leaderboardQuery (punterType : String) : String :=
  let query := "SELECT username, total_wins, total_losses, win_rate FROM users"
  let query :=
    if punterType = "ai" then query ++ " WHERE role = 'ai_punter'"
    else if punterType = "human" then query ++ " WHERE role != 'ai_punter'"
    else query
  query ++ " ORDER BY win_rate DESC LIMIT 10"

/-- The users a value of the `type` parameter asks for, in the words of the claim:
those of role `ai_punter` for `ai`, those of any other role for `human`, everyone
for any other value. -/
def wantedRole (punterType : String) (u : User) : Bool :=
  if punterType = "ai" then u.role == "ai_punter"
  else if punterType = "human" then u.role != "ai_punter"
  else true

/-- Modelled from the spec: the store's `ORDER BY win_rate DESC` (the engine is
not part of the repository); ties come out in one of the orders the engine may
choose. -/
def orderByWinRateDesc (us : List User) : List User :=
  us.insertionSort (fun a b => b.win_rate ≤ a.win_rate)

/-- Modelled from the spec: the rows the store selects for a leaderboard
statement with the given `WHERE` filter: filter, order, `LIMIT 10`. -/
def selectTop (keep : User → Bool) (us : List User) : List User :=
  (orderByWinRateDesc (us.filter keep)).take 10

/-- Modelled from the spec: the schema and engine are not in the repository.
`db.Query(query)` for the three statements `leaderboard` can build; any other
text is outside this model and reported as a syntax error. -/
def Store.query (db : Store) (fault : Option DbErr) (query : String) : Except DbErr (List User) :=
  match fault with
  | some e => .error e
  | none =>
    if query = "SELECT username, total_wins, total_losses, win_rate FROM users"
        ++ " ORDER BY win_rate DESC LIMIT 10" then
      .ok (selectTop (fun _ => true) db.users)
    else if query = "SELECT username, total_wins, total_losses, win_rate FROM users"
        ++ " WHERE role = 'ai_punter'" ++ " ORDER BY win_rate DESC LIMIT 10" then
      .ok (selectTop (fun u => u.role == "ai_punter") db.users)
    else if query = "SELECT username, total_wins, total_losses, win_rate FROM users"
        ++ " WHERE role != 'ai_punter'" ++ " ORDER BY win_rate DESC LIMIT 10" then
      .ok (selectTop (fun u => u.role != "ai_punter") db.users)
    else .error (.pq "syntax_error")

/-- The entry `leaderboard` appends for one scanned row. -/
def lbEntry (u : User) : LbEntry :=
  ⟨u.username, u.total_wins, u.total_losses, u.win_rate⟩

/-- `leaderboard`: build the statement, run it, one entry per row in row order. An
empty `lb` is written as JSON `null`. -/
def leaderboard (fault : Option DbErr) (punterType : String) (db : Store) : Response :=
  match db.query fault (leaderboardQuery punterType) with
  | .error err => ⟨500, .error err.Error⟩
  | .ok rows => ⟨200, .leaderboard (rows.map lbEntry)⟩

/-! ## A small concrete environment

Used to run the handlers on concrete requests. Hashes are `salt$password`; a token
is `alg.user_id,exp.signature` with decimal numbers. -/

/-- Split a text at every `.`. -/
def splitDots : List Char → List (List Char)
  | [] => [[]]
  | c :: cs =>
    match splitDots cs with
    | [] => [[]]
    | w :: ws => if c = '.' then [] :: w :: ws else (c :: w) :: ws

/-- The claims segment of the demo serialisation: `user_id,exp`. -/
def demoClaimsText (m : MapClaims) : String :=
  (match m.user_id with | .num n => toString n.toNat | _ => "") ++ "," ++
    (match m.exp with | some e => toString e.toNat | none => "")

/-- Inverse of `demoClaimsText`. -/
def demoClaimsOfText (cs : List Char) : Option MapClaims :=
  match natOfDigits (cs.takeWhile (· ≠ ',')), natOfDigits ((cs.dropWhile (· ≠ ',')).drop 1) with
  | some uid, some exp => some ⟨.num uid, some exp, none, none⟩
  | _, _ => none

/-- The demo keyed checksum standing in for HMAC. -/
def demoMac (alg sstr key : String) : String :=
  String.mk ((alg ++ ":" ++ key ++ ":" ++ sstr).toList.map fun c => if c = '.' then '_' else c)

/-- The demo environment. -/
def demoEnv : Env where
  GenerateFromPassword := fun salt password =>
    if password.length > 72 then none else some (salt ++ "$" ++ password)
  CompareHashAndPassword := fun hash password =>
    ("$" ++ password).toList.isSuffixOf hash.toList
  SigningString := fun alg m => alg ++ "." ++ demoClaimsText m
  Sign := fun alg sstr key => some (demoMac alg sstr key)
  Verify := fun alg sstr sig key => sig == demoMac alg sstr key
  decodeSegments := fun s =>
    match splitDots s.toList with
    | [h, c, sig] =>
      match demoClaimsOfText c with
      | some m => some ⟨some (String.mk h), m, String.mk (h ++ '.' :: c), String.mk sig⟩
      | none => none
    | _ => none

/-- The empty store. -/
def emptyStore : Store := ⟨[], [], [], 1, 1, 1⟩

/-- A JSON string member `"key": "s"`. -/
def strMember (key s : String) : Member := ⟨key, .string s, "\"" ++ s ++ "\""⟩

/-- The request body of the specification's example registration. -/
def aliceBody : Body :=
  .object [strMember "username" "alice", strMember "email" "a@x.com",
    strMember "password" "pw123456"]

/-- The store after the example registration. -/
def aliceStore : Store := (register demoEnv "s1" none aliceBody emptyStore).2

/-- A betslip request with a platform, a games array and a client-supplied status. -/
def betslipBody : Body :=
  .object [strMember "platform" "bet9ja", ⟨"games", .other, "[1,2]"⟩, strMember "status" "won"]

/-- A users table with two human punters and one AI punter, with win rates 1/2,
9/10 and 3/4. -/
def sampleStore : Store :=
  ⟨[⟨1, "alice", "a@x.com", "h1", "punter", 1, 1, ⟨1, 2, by decide, by decide⟩⟩,
    ⟨2, "bot", "b@x.com", "h2", "ai_punter", 9, 1, ⟨9, 10, by decide, by decide⟩⟩,
    ⟨3, "carol", "c@x.com", "h3", "punter", 3, 1, ⟨3, 4, by decide, by decide⟩⟩], [], [], 4, 1, 1⟩

/-! ## Registration -/

/-- A statement hit by a store fault fails with that fault. -/
theorem insertUser_fault (db : Store) (e : DbErr) (username email hash : String) :
    db.insertUser (some e) username email hash = .error e := rfl

/-- `ON CONFLICT (username) DO NOTHING`: with a row of that username present the
insert succeeds and changes nothing. -/
theorem insertUser_existing (db : Store) (username email hash : String)
    (h : ∃ u ∈ db.users, u.username = username) :
    db.insertUser none username email hash = .ok db := by
  obtain ⟨u, hu, hn⟩ := h
  have hany : db.users.any (fun u => u.username == username) = true :=
    List.any_eq_true.mpr ⟨u, hu, by simp [hn]⟩
  simp [Store.insertUser, hany]

/-- Registering a username that is already present (no store fault, hashing
succeeds) is answered 201 and leaves the store as it was. -/
theorem register_existing_username (E : Env) (salt : String) (body : Body) (db : Store)
    (u : RegisterForm) (hash : String) (hb : bindRegister body = some u)
    (hh : E.GenerateFromPassword salt u.Password = some hash)
    (hex : ∃ x ∈ db.users, x.username = u.Username) :
    register E salt none body db = (⟨201, .message ("Welcome " ++ u.Username ++ "!")⟩, db) := by
  simp [register, hb, hh, insertUser_existing db u.Username u.Email hash hex]

/-- C1, evaluated on the code: on the empty store the example registration is
answered 201, and the same request sent again is answered 201 as well (not 409),
the users table staying at the one row of the first request. -/
theorem register_same_username_twice :
    (register demoEnv "s1" none aliceBody emptyStore).1.status = 201 ∧
    (register demoEnv "s2" none aliceBody aliceStore).1.status = 201 ∧
    (register demoEnv "s2" none aliceBody aliceStore).2.users = aliceStore.users ∧
    aliceStore.users.length = 1 := by
  decide

/-- C2 fails as stated: the body consisting of the empty JSON object (username, email and
password all missing) is answered 201 and a user row with empty username and
email is inserted. -/
theorem register_empty_object_created :
    register demoEnv "s1" none (Body.object []) emptyStore =
      (⟨201, .message "Welcome !"⟩,
        { emptyStore with users := [⟨1, "", "", "s1$", "punter", 0, 0, 0⟩], nextUserId := 2 }) := by
  decide

/-- A string field fails to decode exactly when the object gives it a value that is
neither a string nor `null`. -/
theorem decodeStringField_eq_none_iff (name : String) (ms : List Member) (cur : String) :
    decodeStringField name ms cur = none ↔ mistyped name ms := by
  unfold mistyped
  induction ms generalizing cur with
  | nil => simp [decodeStringField]
  | cons m ms ih =>
    unfold decodeStringField
    by_cases hk : equalFold name m.key = true
    · cases hkind : m.kind with
      | null => simp [hk, hkind, ih]
      | string s => simp [hk, hkind, ih]
      | other => simp [hk, hkind]
    · simp [hk, ih]

/-- A string field that decodes holds the string of the last matching string-valued
member, or the value it started from when there is none. -/
theorem decodeStringField_eq_some (name : String) (ms : List Member) (cur v : String)
    (h : decodeStringField name ms cur = some v) :
    v = (((ms.filter fun m => equalFold name m.key).filterMap Member.string?).getLast?).getD
      cur := by
  induction ms generalizing cur with
  | nil => simpa [decodeStringField] using h.symm
  | cons m ms ih =>
    unfold decodeStringField at h
    by_cases hk : equalFold name m.key = true
    · cases hkind : m.kind with
      | null =>
        simp only [hk, hkind, if_true] at h
        simpa [List.filter_cons, hk, Member.string?, hkind] using ih cur h
      | string s =>
        simp only [hk, hkind, if_true] at h
        have := ih s h
        simp [List.filter_cons, hk, Member.string?, hkind, List.getLast?_cons, this]
      | other => simp [hk, hkind] at h
    · simp only [hk] at h
      simpa [List.filter_cons, hk] using ih cur h

/-- A string field decoded from the zero value holds what the request gives for it. -/
theorem decodeStringField_requestString (name : String) (ms : List Member) (v : String)
    (h : decodeStringField name ms "" = some v) : v = requestString name ms :=
  decodeStringField_eq_some name ms "" v h

/-- A raw field holds the raw text of the last matching member, or the value it
started from when there is none. -/
theorem decodeRawField_eq (name : String) (ms : List Member) (cur : Option String) :
    decodeRawField name ms cur =
      (((ms.filter fun m => equalFold name m.key).map Member.raw).getLast?).or cur := by
  induction ms generalizing cur with
  | nil => rfl
  | cons m ms ih =>
    unfold decodeRawField
    by_cases hk : equalFold name m.key = true
    · have hf : (m :: ms).filter (fun m => equalFold name m.key) =
          m :: ms.filter (fun m => equalFold name m.key) := by
        simp only [List.filter_cons, hk, if_true]
      rw [if_pos hk, ih, hf, List.map_cons, List.getLast?_cons]
      cases ((ms.filter fun m => equalFold name m.key).map Member.raw).getLast? <;> rfl
    · have hf : (m :: ms).filter (fun m => equalFold name m.key) =
          ms.filter (fun m => equalFold name m.key) := by
        simp only [List.filter_cons, hk]
        rfl
      rw [if_neg hk, ih, hf]

/-- A raw field decoded from nil holds what the request gives for it. -/
theorem decodeRawField_requestRaw (name : String) (ms : List Member) :
    decodeRawField name ms none = requestRaw name ms := by
  rw [decodeRawField_eq, requestRaw]
  cases ((ms.filter fun m => equalFold name m.key).map Member.raw).getLast? <;> rfl

/-- The bodies `register` fails to bind. -/
theorem bindRegister_eq_none_iff (body : Body) :
    bindRegister body = none ↔
      body = .malformed ∨ body = .nonObject ∨
      ∃ ms, body = .object ms ∧
        (mistyped "username" ms ∨ mistyped "email" ms ∨ mistyped "password" ms) := by
  cases body with
  | malformed => simp [bindRegister]
  | null => simp [bindRegister]
  | nonObject => simp [bindRegister]
  | object ms =>
    cases hu : decodeStringField "username" ms "" <;>
      cases he : decodeStringField "email" ms "" <;>
      cases hp : decodeStringField "password" ms "" <;>
      simp [bindRegister, hu, he, hp, ← decodeStringField_eq_none_iff _ ms ""]

/-- What `register` binds from the bodies it does bind. -/
theorem bindRegister_eq_some (body : Body) (u : RegisterForm) (h : bindRegister body = some u) :
    (body = .null ∧ u = ⟨"", "", ""⟩) ∨
    ∃ ms, body = .object ms ∧
      u = ⟨requestString "username" ms, requestString "email" ms,
        requestString "password" ms⟩ := by
  cases body with
  | malformed => simp [bindRegister] at h
  | nonObject => simp [bindRegister] at h
  | null =>
    left
    simp [bindRegister] at h
    exact ⟨rfl, h.symm⟩
  | object ms =>
    right
    refine ⟨ms, rfl, ?_⟩
    cases hu : decodeStringField "username" ms "" with
    | none => simp [bindRegister, hu] at h
    | some a =>
      cases he : decodeStringField "email" ms "" with
      | none => simp [bindRegister, hu, he] at h
      | some b =>
        cases hp : decodeStringField "password" ms "" with
        | none => simp [bindRegister, hu, he, hp] at h
        | some c =>
          simp [bindRegister, hu, he, hp] at h
          rw [← h, decodeStringField_requestString _ ms a hu,
            decodeStringField_requestString _ ms b he,
            decodeStringField_requestString _ ms c hp]

/-- C2, amended: `register` answers 400 exactly when the body does not bind, and then
the store is untouched. The body does not bind exactly when it is not JSON, is a
JSON value other than an object or `null`, or is an object giving username, email
or password a value that is neither a string nor `null`. Every other body binds,
each field to the string the request gives for it (the empty string when it gives
none), and `register` goes on to hash the password and run the insert, whether or
not a field is empty. -/
theorem register_bad_request_iff (E : Env) (salt : String) (fault : Option DbErr) (body : Body)
    (db : Store) :
    ((register E salt fault body db).1.status = 400 ↔ bindRegister body = none) ∧
    (bindRegister body = none ↔
      body = .malformed ∨ body = .nonObject ∨
      ∃ ms, body = .object ms ∧
        (mistyped "username" ms ∨ mistyped "email" ms ∨ mistyped "password" ms)) ∧
    (bindRegister body = none →
      register E salt fault body db = (⟨400, .error "Invalid request body"⟩, db)) ∧
    (∀ u, bindRegister body = some u →
      ((body = .null ∧ u = ⟨"", "", ""⟩) ∨
        ∃ ms, body = .object ms ∧
          u = ⟨requestString "username" ms, requestString "email" ms,
            requestString "password" ms⟩) ∧
      register E salt fault body db =
        match E.GenerateFromPassword salt u.Password with
        | none => (⟨500, .error "Failed to hash password"⟩, db)
        | some hashedPassword =>
          match db.insertUser fault u.Username u.Email hashedPassword with
          | .error _ => (⟨409, .error "Username or email already exists"⟩, db)
          | .ok db1 => (⟨201, .message ("Welcome " ++ u.Username ++ "!")⟩, db1)) := by
  refine ⟨?_, bindRegister_eq_none_iff body, ?_, ?_⟩
  · cases hb : bindRegister body with
    | none => simp [register, hb]
    | some u =>
      cases hh : E.GenerateFromPassword salt u.Password with
      | none => simp [register, hb, hh]
      | some hash =>
        cases hi : db.insertUser fault u.Username u.Email hash <;> simp [register, hb, hh, hi]
  · intro hb
    simp [register, hb]
  · intro u hb
    refine ⟨bindRegister_eq_some body u hb, ?_⟩
    simp only [register, hb]

/-- C2, amended, on concrete requests: an object with an empty username and a numeric
email does not bind and is answered 400 with the store untouched; an object with
an empty username and an extra numeric member binds, username, email and password
all empty. -/
theorem register_bad_request_iff_witness :
    register demoEnv "s1" none
        (Body.object [strMember "username" "", ⟨"email", .other, "5"⟩]) emptyStore =
      (⟨400, .error "Invalid request body"⟩, emptyStore) ∧
    bindRegister (Body.object [strMember "username" "", ⟨"age", .other, "5"⟩]) =
      some ⟨"", "", ""⟩ :=
  ⟨(register_bad_request_iff demoEnv "s1" none
      (Body.object [strMember "username" "", ⟨"email", .other, "5"⟩]) emptyStore).2.2.1
      (by decide),
   by decide⟩

/-! ## Login -/

/-- The lookup of a username no row carries reports `sql.ErrNoRows`. -/
theorem selectIdHash_unknown (db : Store) (username : String)
    (h : ∀ u ∈ db.users, u.username ≠ username) :
    db.selectIdHash none username = .error .ErrNoRows := by
  have hf : db.users.find? (fun u => u.username == username) = none := by
    rw [List.find?_eq_none]
    intro u hu
    simpa using h u hu
  simp [Store.selectIdHash, hf]

/-- The lookup of a username some row carries returns the id and hash of a row
with that username. -/
theorem selectIdHash_known (db : Store) (username : String)
    (h : ∃ u ∈ db.users, u.username = username) :
    ∃ u ∈ db.users, u.username = username ∧
      db.selectIdHash none username = .ok (u.id, u.password_hash) := by
  cases hf : db.users.find? (fun u => u.username == username) with
  | none =>
    obtain ⟨u, hu, hn⟩ := h
    rw [List.find?_eq_none] at hf
    exact absurd (by simpa using hn) (hf u hu)
  | some u =>
    have hmem : u ∈ db.users := List.mem_of_find?_eq_some hf
    have hname : u.username = username := by simpa using List.find?_some hf
    exact ⟨u, hmem, hname, by simp [Store.selectIdHash, hf]⟩

/-- C3: with the store answering the lookup, a login for a username that is not in
the store and a login for a username that is in the store but whose password does
not verify against the stored hash get the identical response, status 401 with
body error "Invalid credentials", which carries no token. -/
theorem login_failure_indistinguishable (E : Env) (jwtSecret : String) (now1 now2 : Nat)
    (db : Store) (body1 body2 : Body) (u1 u2 : LoginForm)
    (hb1 : bindLogin body1 = some u1) (hb2 : bindLogin body2 = some u2)
    (hunknown : ∀ u ∈ db.users, u.username ≠ u1.Username)
    (hknown : ∃ u ∈ db.users, u.username = u2.Username)
    (hwrong : ∀ u ∈ db.users, u.username = u2.Username →
      E.CompareHashAndPassword u.password_hash u2.Password = false) :
    login E jwtSecret now1 none body1 db = login E jwtSecret now2 none body2 db ∧
    login E jwtSecret now1 none body1 db = ⟨401, .error "Invalid credentials"⟩ ∧
    ∀ t, (login E jwtSecret now2 none body2 db).body ≠ .token t := by
  have h1 : login E jwtSecret now1 none body1 db = ⟨401, .error "Invalid credentials"⟩ := by
    simp [login, hb1, selectIdHash_unknown db u1.Username hunknown]
  have h2 : login E jwtSecret now2 none body2 db = ⟨401, .error "Invalid credentials"⟩ := by
    obtain ⟨u, hu, hn, hsel⟩ := selectIdHash_known db u2.Username hknown
    simp [login, hb2, hsel, hwrong u hu hn]
  refine ⟨h1.trans h2.symm, h1, ?_⟩
  intro t
  rw [h2]
  simp

/-- C3 on concrete requests: with alice registered, a login as the unknown bob and a
login as alice with a wrong password are answered alike. -/
theorem login_failure_indistinguishable_witness :
    login demoEnv "k" 100 none
        (Body.object [strMember "username" "bob", strMember "password" "pw123456"]) aliceStore =
      login demoEnv "k" 100 none
        (Body.object [strMember "username" "alice", strMember "password" "wrong"]) aliceStore :=
  (login_failure_indistinguishable demoEnv "k" 100 100 aliceStore
    (Body.object [strMember "username" "bob", strMember "password" "pw123456"])
    (Body.object [strMember "username" "alice", strMember "password" "wrong"])
    ⟨"bob", "pw123456"⟩ ⟨"alice", "wrong"⟩ (by decide) (by decide) (by decide) (by decide)
    (by decide)).1

/-! ## Tokens and the middleware -/

/-- Trimming the prefix off a header that carries it leaves the token string. -/
theorem TrimPrefix_bearer (s : String) : TrimPrefix ("Bearer " ++ s) "Bearer " = s := by
  have hl : ("Bearer " ++ s).toList = "Bearer ".toList ++ s.toList := by
    simp [String.toList]
  have hp : "Bearer ".toList.isPrefixOf ("Bearer " ++ s).toList = true := by
    rw [hl, List.isPrefixOf_iff_prefix]
    exact List.prefix_append _ _
  have hlen : "Bearer ".length = "Bearer ".toList.length := rfl
  unfold TrimPrefix
  rw [if_pos hp, hl, hlen, List.drop_left]
  rfl

/-- A header with the prefix differs from the token string it carries. -/
theorem bearer_ne (s : String) : s ≠ "Bearer " ++ s := by
  intro h
  have hlen := congrArg String.length h
  simp [String.length_append] at hlen
  have : "Bearer ".length = 7 := by decide
  omega

/-- A header with the prefix is not empty. -/
theorem bearer_ne_empty (s : String) : "Bearer " ++ s ≠ "" := by
  intro h
  have hlen := congrArg String.length h
  simp [String.length_append] at hlen
  have : "Bearer ".length = 7 := by decide
  omega

/-- The middleware on a header carrying the prefix: the outcome of `jwt.Parse` on
the token string decides. -/
theorem authMiddleware_bearer (E : Env) (jwtSecret : String) (now : Nat) (s : String) :
    authMiddleware E jwtSecret now ("Bearer " ++ s) =
      match Parse E jwtSecret now s with
      | .error _ => .abort ⟨401, .error "Invalid token"⟩
      | .ok token => .next ⟨some token.claims.user_id⟩ := by
  unfold authMiddleware
  rw [if_neg (bearer_ne_empty s)]
  simp only [TrimPrefix_bearer]
  rw [if_neg (bearer_ne s)]

/-- The claims of a login token are valid at a clock reading exactly when the
reading is not past `exp`. -/
theorem loginClaims_Valid (id : Int) (t now : Nat) :
    (loginClaims id t).Valid now = decide (now ≤ t + 72 * 3600) := by
  have hne : ¬ ((t : Int) + 72 * 3600 = 0) := by omega
  simp only [MapClaims.Valid, MapClaims.VerifyExpiresAt, MapClaims.VerifyIssuedAt,
    MapClaims.VerifyNotBefore, loginClaims, verifyExp, if_neg hne]
  by_cases h : now ≤ t + 72 * 3600
  · simp [h]
    omega
  · simp [h]
    omega

/-- `jwt.Parse` on a token string that decodes to a login token with a signature
that verifies: accepted exactly while the clock reading is not past `exp`. -/
theorem Parse_loginToken (E : Env) (jwtSecret : String) (id : Int) (t now : Nat)
    (tok sstr sig : String)
    (hdec : E.decodeSegments tok = some ⟨some "HS256", loginClaims id t, sstr, sig⟩)
    (hver : E.Verify "HS256" sstr sig jwtSecret = true) :
    Parse E jwtSecret now tok =
      if now ≤ t + 72 * 3600 then .ok ⟨some "HS256", loginClaims id t, sstr, sig⟩
      else .error "token is invalid" := by
  have hm : GetSigningMethod "HS256" = some (.HMAC "HS256") := by decide
  simp only [Parse, hdec, hm, keyFunc, SigningMethod.isHMAC, hver, loginClaims_Valid]
  by_cases h : now ≤ t + 72 * 3600 <;> simp [h, hver]

/-- C4: round trip of issue and verify. When `login` at clock reading `t` finds the
user `id` and the password verifies, it answers 200 with a token; that token,
presented as `Bearer <token>` with the same secret, passes the middleware at every
clock reading strictly before `t + 72 * 3600` (the handler runs with `user_id = id`
in the context) and is answered 401 at every reading strictly after it. The
library is assumed to sign, to decode what it serialised and to verify what it
signed. -/
theorem login_token_round_trip (E : Env) (jwtSecret : String) (t : Nat) (body : Body)
    (db : Store) (u : LoginForm) (id : Int) (hash sig : String)
    (hb : bindLogin body = some u)
    (hsel : db.selectIdHash none u.Username = .ok (id, hash))
    (hcmp : E.CompareHashAndPassword hash u.Password = true)
    (hsign : E.Sign "HS256" (E.SigningString "HS256" (loginClaims id t)) jwtSecret = some sig)
    (hdec : E.decodeSegments (E.SigningString "HS256" (loginClaims id t) ++ "." ++ sig) =
      some ⟨some "HS256", loginClaims id t, E.SigningString "HS256" (loginClaims id t), sig⟩)
    (hver : E.Verify "HS256" (E.SigningString "HS256" (loginClaims id t)) sig jwtSecret = true) :
    ∃ tok, login E jwtSecret t none body db = ⟨200, .token tok⟩ ∧
      (∀ (now : Nat) (handler : Context → Store → Response × Store) (db1 : Store),
        now < t + 72 * 3600 →
        authMiddleware E jwtSecret now ("Bearer " ++ tok) = .next ⟨some (.num id)⟩ ∧
        authRoute E jwtSecret now ("Bearer " ++ tok) handler db1 =
          handler ⟨some (.num id)⟩ db1) ∧
      (∀ (now : Nat) (handler : Context → Store → Response × Store) (db1 : Store),
        t + 72 * 3600 < now →
        authRoute E jwtSecret now ("Bearer " ++ tok) handler db1 =
          (⟨401, .error "Invalid token"⟩, db1)) := by
  refine ⟨E.SigningString "HS256" (loginClaims id t) ++ "." ++ sig, ?_, ?_, ?_⟩
  · simp [login, hb, hsel, hcmp, SignedString, hsign]
  · intro now handler db1 hlt
    have hle : now ≤ t + 72 * 3600 := Nat.le_of_lt hlt
    have hmw : authMiddleware E jwtSecret now
        ("Bearer " ++ (E.SigningString "HS256" (loginClaims id t) ++ "." ++ sig)) =
        .next ⟨some (.num id)⟩ := by
      rw [authMiddleware_bearer, Parse_loginToken E jwtSecret id t now _ _ _ hdec hver, if_pos hle]
      rfl
    exact ⟨hmw, by rw [authRoute, hmw]⟩
  · intro now handler db1 hgt
    have hnle : ¬ now ≤ t + 72 * 3600 := Nat.not_le_of_gt hgt
    have hmw : authMiddleware E jwtSecret now
        ("Bearer " ++ (E.SigningString "HS256" (loginClaims id t) ++ "." ++ sig)) =
        .abort ⟨401, .error "Invalid token"⟩ := by
      rw [authMiddleware_bearer, Parse_loginToken E jwtSecret id t now _ _ _ hdec hver,
        if_neg hnle]
    rw [authRoute, hmw]

/-- C4 on a concrete run: alice logs in at clock reading 100; her token passes the
middleware with `user_id = 1` and a handler behind it runs. -/
theorem login_token_round_trip_witness :
    ∃ tok, login demoEnv "k" 100 none aliceBody aliceStore = ⟨200, .token tok⟩ ∧
      (∀ (now : Nat) (handler : Context → Store → Response × Store) (db1 : Store),
        now < 100 + 72 * 3600 →
        authMiddleware demoEnv "k" now ("Bearer " ++ tok) = .next ⟨some (.num 1)⟩ ∧
        authRoute demoEnv "k" now ("Bearer " ++ tok) handler db1 =
          handler ⟨some (.num 1)⟩ db1) ∧
      (∀ (now : Nat) (handler : Context → Store → Response × Store) (db1 : Store),
        100 + 72 * 3600 < now →
        authRoute demoEnv "k" now ("Bearer " ++ tok) handler db1 =
          (⟨401, .error "Invalid token"⟩, db1)) :=
  login_token_round_trip demoEnv "k" 100 aliceBody aliceStore ⟨"alice", "pw123456"⟩ 1
    "s1$pw123456" "HS256:k:HS256_1,259300" (by decide) rfl (by decide) (by decide)
    (by decide) (by decide)

/-- C5: a request whose `Authorization` header is absent or empty, or does not begin
with `Bearer `, is aborted with status 401 by the middleware; no context is
passed on, and whatever handler stands behind the middleware the route answers
that response with the store unchanged. -/
theorem authMiddleware_requires_bearer (E : Env) (jwtSecret : String) (now : Nat)
    (authHeader : String)
    (h : authHeader = "" ∨ ¬ ("Bearer ".toList <+: authHeader.toList)) :
    ∃ r : Response, r.status = 401 ∧
      authMiddleware E jwtSecret now authHeader = .abort r ∧
      ∀ (handler : Context → Store → Response × Store) (db : Store),
        authRoute E jwtSecret now authHeader handler db = (r, db) := by
  by_cases he : authHeader = ""
  · refine ⟨⟨401, .error "Authorization header required"⟩, rfl, ?_, ?_⟩
    · simp [authMiddleware, he]
    · intro handler db
      simp [authRoute, authMiddleware, he]
  · have hp : ¬ ("Bearer ".toList <+: authHeader.toList) := by
      rcases h with h | h
      · exact absurd h he
      · exact h
    have hpb : ¬ ("Bearer ".toList.isPrefixOf authHeader.toList = true) := by
      rw [List.isPrefixOf_iff_prefix]
      exact hp
    have htrim : TrimPrefix authHeader "Bearer " = authHeader := by
      unfold TrimPrefix
      rw [if_neg hpb]
    have hmw : authMiddleware E jwtSecret now authHeader =
        .abort ⟨401, .error "Bearer token required"⟩ := by
      unfold authMiddleware
      rw [if_neg he]
      simp [htrim]
    refine ⟨⟨401, .error "Bearer token required"⟩, rfl, hmw, ?_⟩
    intro handler db
    rw [authRoute, hmw]

/-- C5 on a concrete request: a `Basic` header is answered 401 before `postBetslip`
could run. -/
theorem authMiddleware_requires_bearer_witness :
    ∃ r : Response, r.status = 401 ∧
      authMiddleware demoEnv "k" 100 "Basic YWxpY2U6cHc=" = .abort r ∧
      ∀ (handler : Context → Store → Response × Store) (db : Store),
        authRoute demoEnv "k" 100 "Basic YWxpY2U6cHc=" handler db = (r, db) :=
  authMiddleware_requires_bearer demoEnv "k" 100 "Basic YWxpY2U6cHc=" (Or.inr (by decide))

/-- C6: for a token whose header names a signing method outside the HMAC family, the
key function returns an error instead of the secret, and the middleware answers
401 without running the handler, whatever the claims, the signature and the
clock reading are. -/
theorem non_hmac_token_rejected (E : Env) (jwtSecret : String) (now : Nat)
    (tokenString alg : String) (token : Token)
    (hdec : E.decodeSegments tokenString = some token)
    (halg : token.alg = some alg)
    (hfam : ∀ m, GetSigningMethod alg = some m → m.isHMAC = false) :
    (∀ m, GetSigningMethod alg = some m →
      keyFunc jwtSecret m = .error "unexpected signing method") ∧
    authMiddleware E jwtSecret now ("Bearer " ++ tokenString) =
      .abort ⟨401, .error "Invalid token"⟩ ∧
    ∀ (handler : Context → Store → Response × Store) (db : Store),
      authRoute E jwtSecret now ("Bearer " ++ tokenString) handler db =
        (⟨401, .error "Invalid token"⟩, db) := by
  have hkey : ∀ m, GetSigningMethod alg = some m →
      keyFunc jwtSecret m = .error "unexpected signing method" := by
    intro m hm
    simp [keyFunc, hfam m hm]
  have hmw : authMiddleware E jwtSecret now ("Bearer " ++ tokenString) =
      .abort ⟨401, .error "Invalid token"⟩ := by
    rw [authMiddleware_bearer]
    cases hg : GetSigningMethod alg with
    | none => simp [Parse, hdec, halg, hg]
    | some m => simp [Parse, hdec, halg, hg, hkey m hg]
  refine ⟨hkey, hmw, ?_⟩
  intro handler db
  rw [authRoute, hmw]

/-- C6 on a concrete token: a token with `alg` `none` that names user 1 and carries
no signature is answered 401. -/
theorem non_hmac_token_rejected_witness :
    authMiddleware demoEnv "k" 100 ("Bearer " ++ "none.1,259300.") =
      .abort ⟨401, .error "Invalid token"⟩ :=
  (non_hmac_token_rejected demoEnv "k" 100 "none.1,259300." "none"
    ⟨some "none", ⟨.num 1, some 259300, none, none⟩, "none.1,259300", ""⟩
    (by decide) rfl (by decide)).2.1

/-! ## Betslips -/

/-- What `postBetslip` binds from the bodies it does bind: nothing from `null`, and
from an object the platform string and the raw games text the request gives. -/
theorem bindBetslip_eq_some (body : Body) (b : BetslipForm) (h : bindBetslip body = some b) :
    (body = .null ∧ b = ⟨"", none⟩) ∨
    ∃ ms, body = .object ms ∧ b = ⟨requestString "platform" ms, requestRaw "games" ms⟩ := by
  cases body with
  | malformed => simp [bindBetslip] at h
  | nonObject => simp [bindBetslip] at h
  | null =>
    left
    simp [bindBetslip] at h
    exact ⟨rfl, h.symm⟩
  | object ms =>
    right
    refine ⟨ms, rfl, ?_⟩
    cases hp : decodeStringField "platform" ms "" with
    | none => simp [bindBetslip, hp] at h
    | some p =>
      simp [bindBetslip, hp] at h
      rw [← h, decodeStringField_requestString _ ms p hp, decodeRawField_requestRaw]

/-- C7: whenever `postBetslip`, called for an authenticated caller, answers 201, the
caller's `user_id` is a number and the store gained exactly one betslip row: that
caller, the platform string and the raw games text the request body gives (for an
object: the string of its last string-valued `platform` member, empty when there
is none, and the raw text of its last `games` member; for `null`: empty and nil),
status `pending` whatever else the body carries, with the id the response carries;
users (so every `total_wins` and `total_losses`) and comments are as before. -/
theorem postBetslip_created (fault : Option DbErr) (body : Body) (userID : Value) (db : Store)
    (h : (postBetslip fault body ⟨some userID⟩ db).1.status = 201) :
    ∃ (platform : String) (games : Option String) (uid : Int),
      userID = .num uid ∧
      ((body = .null ∧ platform = "" ∧ games = none) ∨
        ∃ ms, body = .object ms ∧ platform = requestString "platform" ms ∧
          games = requestRaw "games" ms) ∧
      (postBetslip fault body ⟨some userID⟩ db).1 =
        ⟨201, .betslipPosted "Betslip posted successfully!" db.nextBetslipId⟩ ∧
      (postBetslip fault body ⟨some userID⟩ db).2.betslips =
        db.betslips ++ [⟨db.nextBetslipId, uid, platform, games, "pending"⟩] ∧
      (postBetslip fault body ⟨some userID⟩ db).2.users = db.users ∧
      (postBetslip fault body ⟨some userID⟩ db).2.comments = db.comments := by
  cases hb : bindBetslip body with
  | none => simp [postBetslip, hb] at h
  | some b =>
    cases fault with
    | some e => simp [postBetslip, hb, Store.insertBetslip] at h
    | none =>
      cases userID with
      | nil => simp [postBetslip, hb, Store.insertBetslip, Value.asInt] at h
      | other raw => simp [postBetslip, hb, Store.insertBetslip, Value.asInt] at h
      | num uid =>
        have hreq : (body = .null ∧ b.Platform = "" ∧ b.Games = none) ∨
            ∃ ms, body = .object ms ∧ b.Platform = requestString "platform" ms ∧
              b.Games = requestRaw "games" ms := by
          rcases bindBetslip_eq_some body b hb with ⟨hn, hv⟩ | ⟨ms, hms, hv⟩
          · left
            rw [hv]
            exact ⟨hn, rfl, rfl⟩
          · right
            rw [hv]
            exact ⟨ms, hms, rfl, rfl⟩
        refine ⟨b.Platform, b.Games, uid, rfl, hreq, ?_, ?_, ?_, ?_⟩ <;>
          simp [postBetslip, hb, Store.insertBetslip, Value.asInt]

/-- C7 on a concrete request: the body with platform `bet9ja`, games `[1,2]` and a
client-supplied `"status": "won"`, posted by user 7, creates one betslip row with
exactly that platform and games text and status `pending`. -/
theorem postBetslip_created_witness :
    (postBetslip none betslipBody ⟨some (.num 7)⟩ aliceStore).1 =
      ⟨201, .betslipPosted "Betslip posted successfully!" aliceStore.nextBetslipId⟩ ∧
    (postBetslip none betslipBody ⟨some (.num 7)⟩ aliceStore).2.betslips =
      aliceStore.betslips ++
        [⟨aliceStore.nextBetslipId, 7, "bet9ja", some "[1,2]", "pending"⟩] ∧
    (postBetslip none betslipBody ⟨some (.num 7)⟩ aliceStore).2.users = aliceStore.users := by
  obtain ⟨platform, games, uid, hu, hreq, hresp, hbets, husers, _⟩ :=
    postBetslip_created none betslipBody (.num 7) aliceStore (by decide)
  have huid : uid = 7 := by
    injection hu with h7
    exact h7.symm
  rcases hreq with ⟨hnull, _, _⟩ | ⟨ms, hms, hp, hg⟩
  · exact absurd hnull (by decide)
  · have hms1 : ms = [strMember "platform" "bet9ja", ⟨"games", .other, "[1,2]"⟩,
        strMember "status" "won"] := by
      injection hms with h1
      exact h1.symm
    have h1 : requestString "platform" [strMember "platform" "bet9ja",
        ⟨"games", .other, "[1,2]"⟩, strMember "status" "won"] = "bet9ja" := by decide
    have h2 : requestRaw "games" [strMember "platform" "bet9ja",
        ⟨"games", .other, "[1,2]"⟩, strMember "status" "won"] = some "[1,2]" := by decide
    rw [hms1, h1] at hp
    rw [hms1, h2] at hg
    rw [hp, hg, huid] at hbets
    exact ⟨hresp, hbets, husers⟩

/-! ## Comments -/

/-- C8: the outcome of `postComment` for an authenticated caller, in order: a body
that does not bind, or an empty content, is answered 400 with the store untouched;
otherwise the one insert decides: a foreign-key violation gives 404 "Betslip not
found", any other store error 500, success 201 with the store the insert left;
every answer other than 201 leaves the store untouched. On the store itself
(no fault, numeric ids) the foreign-key violation is the case of a betslip id no
row of `betslips` carries, and an existing betslip gets the comment appended. -/
theorem postComment_outcome (fault : Option DbErr) (betslipID : String) (body : Body)
    (userID : Value) (db : Store) :
    (bindComment body = none →
      postComment fault betslipID body ⟨some userID⟩ db =
        (⟨400, .error "Invalid request body"⟩, db)) ∧
    (bindComment body = some ⟨""⟩ →
      postComment fault betslipID body ⟨some userID⟩ db =
        (⟨400, .error "Comment content cannot be empty"⟩, db)) ∧
    (∀ content, bindComment body = some ⟨content⟩ → content ≠ "" →
      (db.insertComment fault userID betslipID content = .error (.pq "foreign_key_violation") →
        postComment fault betslipID body ⟨some userID⟩ db =
          (⟨404, .error "Betslip not found"⟩, db)) ∧
      (∀ e, db.insertComment fault userID betslipID content = .error e →
        e ≠ .pq "foreign_key_violation" →
        postComment fault betslipID body ⟨some userID⟩ db =
          (⟨500, .error "Failed to post comment"⟩, db)) ∧
      (∀ db1, db.insertComment fault userID betslipID content = .ok db1 →
        postComment fault betslipID body ⟨some userID⟩ db =
          (⟨201, .message "Comment posted successfully"⟩, db1)) ∧
      (∀ uid bid, fault = none → userID = .num uid → intOfText betslipID = some bid →
        (∀ b ∈ db.betslips, b.id ≠ bid) →
        postComment fault betslipID body ⟨some userID⟩ db =
          (⟨404, .error "Betslip not found"⟩, db)) ∧
      (∀ uid bid, fault = none → userID = .num uid → intOfText betslipID = some bid →
        (∃ b ∈ db.betslips, b.id = bid) →
        postComment fault betslipID body ⟨some userID⟩ db =
          (⟨201, .message "Comment posted successfully"⟩,
            { db with
              comments := db.comments ++ [⟨db.nextCommentId, uid, bid, content⟩]
              nextCommentId := db.nextCommentId + 1 }))) ∧
    ((postComment fault betslipID body ⟨some userID⟩ db).1.status ≠ 201 →
      (postComment fault betslipID body ⟨some userID⟩ db).2 = db) := by
  refine ⟨?_, ?_, ?_, ?_⟩
  · intro hb
    simp [postComment, hb]
  · intro hb
    simp [postComment, hb]
  · intro content hb hne
    refine ⟨?_, ?_, ?_, ?_, ?_⟩
    · intro hi
      simp [postComment, hb, hne, hi]
    · intro e hi he
      cases e with
      | pq codeName =>
        have hc : codeName ≠ "foreign_key_violation" := fun hc => he (by rw [hc])
        simp [postComment, hb, hne, hi, hc]
      | driver msg => simp [postComment, hb, hne, hi]
    · intro db1 hi
      simp [postComment, hb, hne, hi]
    · intro uid bid hf hu ht hnone
      have hany : db.betslips.any (fun b => b.id == bid) = false := by
        rw [List.any_eq_false]
        intro b hbm
        simpa using hnone b hbm
      subst hf hu
      simp [postComment, hb, hne, Store.insertComment, Value.asInt, ht, hany]
    · intro uid bid hf hu ht hsome
      have hany : db.betslips.any (fun b => b.id == bid) = true := by
        obtain ⟨b, hbm, hbid⟩ := hsome
        exact List.any_eq_true.mpr ⟨b, hbm, by simp [hbid]⟩
      subst hf hu
      simp [postComment, hb, hne, Store.insertComment, Value.asInt, ht, hany]
  · intro hst
    cases hb : bindComment body with
    | none => simp [postComment, hb]
    | some comment =>
      by_cases hc : comment.Content = ""
      · simp [postComment, hb, hc]
      · cases hi : db.insertComment fault userID betslipID comment.Content with
        | error e =>
          cases e with
          | pq codeName =>
            by_cases hk : codeName = "foreign_key_violation" <;>
              simp [postComment, hb, hc, hi, hk]
          | driver msg => simp [postComment, hb, hc, hi]
        | ok db1 =>
          exfalso
          apply hst
          simp [postComment, hb, hc, hi]

/-- C8 on a concrete request: a non-empty comment on betslip 42, which no row of the
empty store carries, is answered 404 and nothing is stored. -/
theorem postComment_outcome_witness :
    postComment none "42" (Body.object [strMember "content" "nice"]) ⟨some (.num 1)⟩
        emptyStore = (⟨404, .error "Betslip not found"⟩, emptyStore) :=
  (((postComment_outcome none "42" (Body.object [strMember "content" "nice"]) (.num 1)
    emptyStore).2.2.1 "nice" (by decide) (by decide)).2.2.2.1) 1 42 rfl rfl (by decide)
    (by decide)

/-! ## Leaderboard -/

/-- The store's ordering puts the rows in non-increasing `win_rate` order. -/
theorem orderByWinRateDesc_sorted (us : List User) :
    (orderByWinRateDesc us).Pairwise (fun a b => b.win_rate ≤ a.win_rate) := by
  haveI : IsTotal User (fun a b => b.win_rate ≤ a.win_rate) := ⟨fun a b => le_total _ _⟩
  haveI : IsTrans User (fun a b => b.win_rate ≤ a.win_rate) :=
    ⟨fun _ _ _ h1 h2 => le_trans h2 h1⟩
  exact List.sorted_insertionSort _ us

/-- The rows selected for a leaderboard statement are the top of the filtered table:
together with the rows left out they are a rearrangement of the users passing the
filter, they are `min 10` of them, in non-increasing `win_rate` order, and no row
left out has a higher `win_rate` than a selected one. -/
theorem selectTop_spec (keep : User → Bool) (us : List User) :
    ∃ rest : List User,
      (selectTop keep us ++ rest).Perm (us.filter keep) ∧
      (selectTop keep us).length = min 10 (us.filter keep).length ∧
      (selectTop keep us).Pairwise (fun a b => b.win_rate ≤ a.win_rate) ∧
      (∀ r ∈ selectTop keep us, ∀ x ∈ rest, x.win_rate ≤ r.win_rate) := by
  refine ⟨(orderByWinRateDesc (us.filter keep)).drop 10, ?_, ?_, ?_, ?_⟩
  · unfold selectTop
    rw [List.take_append_drop]
    exact List.perm_insertionSort _ _
  · unfold selectTop
    rw [List.length_take]
    unfold orderByWinRateDesc
    rw [List.length_insertionSort]
  · exact (orderByWinRateDesc_sorted _).sublist (List.take_sublist _ _)
  · have hs := orderByWinRateDesc_sorted (us.filter keep)
    rw [← List.take_append_drop 10 (orderByWinRateDesc (us.filter keep))] at hs
    exact (List.pairwise_append.mp hs).2.2

/-- Every selected row is a row of the table that passes the filter. -/
theorem selectTop_mem (keep : User → Bool) (us : List User) :
    ∀ u ∈ selectTop keep us, u ∈ us ∧ keep u = true := by
  intro u hu
  have h1 : u ∈ orderByWinRateDesc (us.filter keep) := List.mem_of_mem_take hu
  have h2 : u ∈ us.filter keep := (List.perm_insertionSort _ _).mem_iff.mp h1
  exact List.mem_filter.mp h2

/-- The statement built for `type=ai`. -/
theorem leaderboardQuery_ai :
    leaderboardQuery "ai" = "SELECT username, total_wins, total_losses, win_rate FROM users"
      ++ " WHERE role = 'ai_punter'" ++ " ORDER BY win_rate DESC LIMIT 10" := by
  decide

/-- The statement built for `type=human`. -/
theorem leaderboardQuery_human :
    leaderboardQuery "human" = "SELECT username, total_wins, total_losses, win_rate FROM users"
      ++ " WHERE role != 'ai_punter'" ++ " ORDER BY win_rate DESC LIMIT 10" := by
  decide

/-- The statement built for any other value of `type`. -/
theorem leaderboardQuery_other (punterType : String) (h1 : punterType ≠ "ai")
    (h2 : punterType ≠ "human") :
    leaderboardQuery punterType = "SELECT username, total_wins, total_losses, win_rate FROM users"
      ++ " ORDER BY win_rate DESC LIMIT 10" := by
  simp [leaderboardQuery, h1, h2]

/-- The rows the store returns for the statement `leaderboard` builds: the top of
the users the `type` parameter asks for. -/
theorem query_leaderboardQuery (db : Store) (punterType : String) :
    db.query none (leaderboardQuery punterType) =
      .ok (selectTop (wantedRole punterType) db.users) := by
  by_cases h1 : punterType = "ai"
  · subst h1
    have hw : wantedRole "ai" = fun u => u.role == "ai_punter" := by
      funext u
      simp [wantedRole]
    rw [leaderboardQuery_ai, hw]
    simp [Store.query]
  · by_cases h2 : punterType = "human"
    · subst h2
      have hw : wantedRole "human" = fun u => u.role != "ai_punter" := by
        funext u
        simp [wantedRole]
      rw [leaderboardQuery_human, hw]
      simp [Store.query]
    · have hw : wantedRole punterType = fun _ => true := by
        funext u
        simp [wantedRole, h1, h2]
      rw [leaderboardQuery_other punterType h1 h2, hw]
      simp [Store.query]

/-- C9: the statement `leaderboard` builds is the base SELECT, followed by
`WHERE role = 'ai_punter'` exactly for `type=ai`, by `WHERE role != 'ai_punter'`
exactly for `type=human`, by no WHERE clause for any other value, and always by
`ORDER BY win_rate DESC LIMIT 10`. Over any users table the store answers that
statement with rows `rows`, and the response is 200 with exactly one entry per
returned row, in row order. The rows are the top of the users the `type` asks for:
with the rows left out they rearrange those users, they are `min 10` of them
(so at most 10), in non-increasing `win_rate` order, no row left out beats a
returned one, all are of role `ai_punter` for `type=ai` and none is for
`type=human`. -/
theorem leaderboard_statement_and_rows (punterType : String) (db : Store) :
    (punterType = "ai" → leaderboardQuery punterType =
      "SELECT username, total_wins, total_losses, win_rate FROM users WHERE role = 'ai_punter' ORDER BY win_rate DESC LIMIT 10") ∧
    (punterType = "human" → leaderboardQuery punterType =
      "SELECT username, total_wins, total_losses, win_rate FROM users WHERE role != 'ai_punter' ORDER BY win_rate DESC LIMIT 10") ∧
    (punterType ≠ "ai" → punterType ≠ "human" → leaderboardQuery punterType =
      "SELECT username, total_wins, total_losses, win_rate FROM users ORDER BY win_rate DESC LIMIT 10") ∧
    ∃ rows rest : List User,
      db.query none (leaderboardQuery punterType) = .ok rows ∧
      leaderboard none punterType db = ⟨200, .leaderboard (rows.map lbEntry)⟩ ∧
      (rows ++ rest).Perm (db.users.filter (wantedRole punterType)) ∧
      rows.length = min 10 (db.users.filter (wantedRole punterType)).length ∧
      rows.Pairwise (fun a b => b.win_rate ≤ a.win_rate) ∧
      (∀ r ∈ rows, ∀ x ∈ rest, x.win_rate ≤ r.win_rate) ∧
      (rows.map lbEntry).length ≤ 10 ∧
      (rows.map lbEntry).Pairwise (fun a b => b.rate ≤ a.rate) ∧
      (∀ u ∈ rows, u ∈ db.users) ∧
      (punterType = "ai" → ∀ u ∈ rows, u.role = "ai_punter") ∧
      (punterType = "human" → ∀ u ∈ rows, u.role ≠ "ai_punter") := by
  refine ⟨?_, ?_, ?_, ?_⟩
  · intro h
    subst h
    decide
  · intro h
    subst h
    decide
  · intro h1 h2
    rw [leaderboardQuery_other punterType h1 h2]
    decide
  · obtain ⟨rest, hperm, hlen, hsorted, hrest⟩ := selectTop_spec (wantedRole punterType) db.users
    have hmem := selectTop_mem (wantedRole punterType) db.users
    refine ⟨selectTop (wantedRole punterType) db.users, rest, query_leaderboardQuery db punterType,
      ?_, hperm, hlen, hsorted, hrest, ?_, ?_, ?_, ?_, ?_⟩
    · simp only [leaderboard, query_leaderboardQuery]
    · rw [List.length_map, hlen]
      exact Nat.min_le_left _ _
    · rw [List.pairwise_map]
      exact hsorted
    · intro u hu
      exact (hmem u hu).1
    · intro h u hu
      have hk := (hmem u hu).2
      simpa [wantedRole, h] using hk
    · intro h u hu
      have hne : punterType ≠ "ai" := by
        rw [h]
        decide
      have hk := (hmem u hu).2
      simpa [wantedRole, h, hne] using hk

/-- C9 on a concrete request: over the sample table, `type=human` is answered with
the two human punters, best rate first. -/
theorem leaderboard_statement_and_rows_witness :
    leaderboard none "human" sampleStore =
      ⟨200, .leaderboard [⟨"carol", 3, 1, ⟨3, 4, by decide, by decide⟩⟩,
        ⟨"alice", 1, 1, ⟨1, 2, by decide, by decide⟩⟩]⟩ := by
  obtain ⟨rows, rest, hq, hresp, _⟩ :=
    (leaderboard_statement_and_rows "human" sampleStore).2.2.2
  have hq2 : sampleStore.query none (leaderboardQuery "human") =
      .ok [⟨3, "carol", "c@x.com", "h3", "punter", 3, 1, ⟨3, 4, by decide, by decide⟩⟩,
        ⟨1, "alice", "a@x.com", "h1", "punter", 1, 1, ⟨1, 2, by decide, by decide⟩⟩] := by
    rfl
  rw [hq2] at hq
  injection hq with hrows
  rw [← hrows] at hresp
  exact hresp

/-! ## Store errors -/

/-- Whatever error the store reports for the insert, `register` answers 409. -/
theorem register_store_error (E : Env) (salt : String) (e : DbErr) (body : Body) (db : Store)
    (u : RegisterForm) (hash : String) (hb : bindRegister body = some u)
    (hh : E.GenerateFromPassword salt u.Password = some hash) :
    register E salt (some e) body db =
      (⟨409, .error "Username or email already exists"⟩, db) := by
  simp [register, hb, hh, insertUser_fault]

/-- C10, evaluated on the code: when the store fails with a lost connection (an error
that is no uniqueness violation), `register` answers 409 "Username or email
already exists" on the example registration, while `postComment` answers the
same fault with 500. -/
theorem register_lost_connection_conflict :
    register demoEnv "s1" (some (.driver "driver: bad connection")) aliceBody emptyStore =
      (⟨409, .error "Username or email already exists"⟩, emptyStore) ∧
    postComment (some (.driver "driver: bad connection")) "1"
        (Body.object [strMember "content" "nice"]) ⟨some (.num 1)⟩ emptyStore =
      (⟨500, .error "Failed to post comment"⟩, emptyStore) := by
  decide

end SBS
